import Mathlib

/-!
Shallow embedding of the Consul service resolver of `faas-nomad`
(file `pkg/resolver`, the `ConsulServiceResolver`).

The Go code is translated as follows:

* `dependency.HealthService` becomes `HealthService`; only the fields the
  resolver reads (`Address`, `Port`, `Checks`) are kept.  The contents of a
  check entry are never inspected by the resolver (only `len(s.Checks)`),
  so a check is modelled as an opaque `String`.
* The `sync.Map` cache becomes an association list `List (String × serviceItem)`
  with `cacheLoad` / `cacheStore` mirroring `Load` / `Store` (whole-entry
  replacement, keyed by the query's string representation).
* The watcher's set of registered queries becomes the `subs` list; `watcher.Add`
  becomes `addSub` (idempotent registration).
* The external catalog client's one-shot `query.Fetch` becomes a parameter
  `fetch : String → Except String (List HealthService)`; `.error e` is an
  upstream fetch failure carrying the error message.
* `rand.Intn` becomes a parameter `randIntn : (n : Nat) → 0 < n → Fin n`,
  embedding `Intn`'s contract that for positive `n` it returns a value in
  `[0, n)`.
* Each resolver operation is state passing: it returns its result together
  with the successor `ResolverState` and, as instrumentation, the list of
  query keys it fetched from the catalog (in order), so that "performs
  exactly one fetch" is a statement about that trace.
-/

/-- A health-annotated service instance as returned by the catalog
(`dependency.HealthService`): address, port, and its list of health-check
entries.  The resolver only ever reads the length of `Checks`. -/
structure HealthService where
  Address : String
  Port : Nat
  Checks : List String
deriving DecidableEq, Repr

/-- A cached resolution (`serviceItem` in the Go source): the query's string
key and the filtered address list. -/
structure serviceItem where
  serviceQuery : String
  addresses : List String
deriving DecidableEq, Repr

/-- `connect.SpiffeIDService`, the expected certificate identity; the Go code
fills `Namespace`, `Datacenter` and `Service` only. -/
structure SpiffeIDService where
  Namespace : String
  Datacenter : String
  Service : String
deriving DecidableEq, Repr

/-- The two error classes of the resolver: an upstream error propagated from
the catalog client's fetch (carrying its message), and the
"no candidate available" error produced by `balance`. -/
inductive ResolveError where
  | upstream : String → ResolveError
  | noCandidate : ResolveError
deriving DecidableEq, Repr

/-- The resolver's mutable state: the resolution cache (the `sync.Map`,
keyed by the query's string representation) and the set of queries
registered with the watcher for continuous updates. -/
structure ResolverState where
  cache : List (String × serviceItem)
  subs : List String
deriving DecidableEq, Repr

/-- The static configuration the resolver is constructed with:
`config.Scheduling.JobPrefix` (`jobPre`), `config.Scheduling.Namespace`
(`ns`) and `config.Consul.ConnectAware` (`connectAware`). -/
structure Config where
  jobPre : String
  ns : String
  connectAware : Bool
deriving DecidableEq, Repr

/-- `sync.Map.Load`: first binding for the key, if any. -/
def cacheLoad (c : List (String × serviceItem)) (k : String) : Option serviceItem :=
  match c with
  | [] => none
  | (k', v') :: rest => if k' = k then some v' else cacheLoad rest k

/-- `sync.Map.Store`: whole-entry replacement of the binding for the key
(insert if absent). -/
def cacheStore (c : List (String × serviceItem)) (k : String) (v : serviceItem) :
    List (String × serviceItem) :=
  match c with
  | [] => [(k, v)]
  | (k', v') :: rest => if k' = k then (k, v) :: rest else (k', v') :: cacheStore rest k v

/-- `watcher.Add`: register a query with the watcher; registering an already
watched query is a no-op. -/
def addSub (subs : List String) (k : String) : List String :=
  if k ∈ subs then subs else subs ++ [k]

/-- `strings.TrimSuffix`: drop the suffix if present, otherwise return the
string unchanged.  Implemented on the character list underlying the string
(Go trims the byte suffix; on the strings involved the two views agree). -/
def trimSuffix (s suffix : String) : String :=
  if suffix.data.isSuffixOf s.data
  then String.mk (s.data.take (s.data.length - suffix.data.length))
  else s

/-- The service name used for the query and identity:
`fmt.Sprintf("%s%s", cr.prefix, strings.TrimSuffix(function, "."+cr.namespace))`
from `ResolveAll`. -/
def normalizeName (cr : Config) (function : String) : String :=
  cr.jobPre ++ trimSuffix function ("." ++ cr.ns)

/-- The string representation of the query built by `healthServiceQuery`
(`dependency.NewHealthConnectQuery` when connect-aware, otherwise
`dependency.NewHealthServiceQuery`).  The query is opaque to the resolver,
which only uses its `String()` as the cache key; we model that
representation as a deterministic string derived from the mode and the
service name, mirroring the library's `health.connect(...)` /
`health.service(...)` rendering. -/
def healthServiceQueryKey (connectAware : Bool) (service : String) : String :=
  if connectAware then "health.connect(" ++ service ++ ")"
  else "health.service(" ++ service ++ ")"

/-- `fmt.Sprintf("%v:%v", s.Address, s.Port)`: the address entry contributed
by an instance. -/
def addrOf (s : HealthService) : String :=
  s.Address ++ ":" ++ toString s.Port

/-- `updateCatalog`: filter the catalog snapshot, keeping the loop structure
of the Go source (append into an accumulator for every instance with more
than one health-check entry), build the `serviceItem`, and store it in the
cache under the query key.  Returns the item together with the successor
state. -/
def updateCatalog (st : ResolverState) (depKey : String) (services : List HealthService) :
    serviceItem × ResolverState :=
  let addresses := services.foldl
    (fun acc s => if 1 < s.Checks.length then acc ++ [addrOf s] else acc) []
  let item : serviceItem := { serviceQuery := depKey, addresses := addresses }
  (item, { st with cache := cacheStore st.cache depKey item })

/-- `resolveInternal`: build the query and the expected `SpiffeIDService`
(namespace from the configuration, datacenter hard-coded `"dc1"`, service =
the normalized name); on a cache hit return the cached addresses; on a miss
perform the one-shot fetch, propagate its error, otherwise apply
`updateCatalog` and register the query with the watcher.  The third
component of the result is the instrumentation trace of fetched query keys. -/
def resolveInternal (cr : Config) (fetch : String → Except String (List HealthService))
    (st : ResolverState) (service : String) :
    Except ResolveError (List String × SpiffeIDService) × ResolverState × List String :=
  let query := healthServiceQueryKey cr.connectAware service
  let certURI : SpiffeIDService :=
    { Namespace := cr.ns, Datacenter := "dc1", Service := service }
  match cacheLoad st.cache query with
  | some item => (Except.ok (item.addresses, certURI), st, [])
  | none =>
    match fetch query with
    | Except.error e => (Except.error (ResolveError.upstream e), st, [query])
    | Except.ok services =>
      let pair := updateCatalog st query services
      let st2 : ResolverState := { pair.2 with subs := addSub pair.2.subs query }
      (Except.ok (pair.1.addresses, certURI), st2, [query])

/-- `ResolveAll`: normalize the function name and delegate to
`resolveInternal`. -/
def ResolveAll (cr : Config) (fetch : String → Except String (List HealthService))
    (st : ResolverState) (function : String) :
    Except ResolveError (List String × SpiffeIDService) × ResolverState × List String :=
  resolveInternal cr fetch st (normalizeName cr function)

/-- `balance`: fail with the no-candidate error on an empty list; otherwise
pick index 0, replaced by `rand.Intn(len)` when the list has more than one
element, and return that candidate with the pass-through identity. -/
def balance (randIntn : (n : Nat) → 0 < n → Fin n) (candidates : List String)
    (certURI : SpiffeIDService) : Except ResolveError (String × SpiffeIDService) :=
  match candidates with
  | [] => Except.error ResolveError.noCandidate
  | c :: cs =>
    let idx : Fin (c :: cs).length :=
      if 1 < (c :: cs).length then randIntn (c :: cs).length (Nat.succ_pos _)
      else ⟨0, Nat.succ_pos _⟩
    Except.ok ((c :: cs).get idx, certURI)

/-- `Resolve`: `ResolveAll` followed by `balance`; an error of `ResolveAll`
is returned as is. -/
def Resolve (cr : Config) (randIntn : (n : Nat) → 0 < n → Fin n)
    (fetch : String → Except String (List HealthService))
    (st : ResolverState) (function : String) :
    Except ResolveError (String × SpiffeIDService) × ResolverState × List String :=
  match ResolveAll cr fetch st function with
  | (Except.error e, st', tr) => (Except.error e, st', tr)
  | (Except.ok (candidates, certURI), st', tr) => (balance randIntn candidates certURI, st', tr)

/-- The payload delivered on the watcher's data channel.  The Go loop
asserts `d.Data().([]*dependency.HealthService)` without an ok-check, so we
distinguish a payload of that dynamic type from any other payload. -/
inductive WatchData where
  | healthServices : List HealthService → WatchData
  | otherData : WatchData
deriving DecidableEq, Repr

/-- One value drained from `watcher.DataCh()`: the dependency's string key
(`d.Dependency()`'s rendering, the cache key) and the payload. -/
structure View where
  dep : String
  data : WatchData
deriving DecidableEq, Repr

/-- One iteration of the watch loop body on a delivered view.  A
health-service payload is applied with `updateCatalog`; any other payload
makes the unchecked type assertion panic, modelled as `none`. -/
def watchStep (st : ResolverState) (d : View) : Option ResolverState :=
  match d.data with
  | WatchData.healthServices svcs => some (updateCatalog st d.dep svcs).2
  | WatchData.otherData => none

/-- The watch loop over the finite sequence of values delivered on the data
channel before it is closed: `for d := range cr.watcher.DataCh()`.  The loop
returns (`some` final state) exactly when it drains the whole sequence,
i.e. when the channel closes. -/
def watchRun (st : ResolverState) : List View → Option ResolverState
  | [] => some st
  | d :: ds =>
    match watchStep st d with
    | some st' => watchRun st' ds
    | none => none

/-- One firing of the reset ticker: `cr.watcher.Stop()` tears down every
subscription, a brand-new watcher replaces it, and `cr.cache = sync.Map{}`
swaps in an empty cache. -/
def reset (_st : ResolverState) : ResolverState :=
  { cache := [], subs := [] }

/-- Spec-side characterization of the eligibility filter, for comparison
with the loop in `updateCatalog`: the instances with strictly more than one
health-check entry, in catalog order, rendered as `"<address>:<port>"`. -/
def specEligibleAddresses (services : List HealthService) : List String :=
  (services.filter fun s => decide (1 < s.Checks.length)).map addrOf

/-- The query key `ResolveAll` uses for a function name. -/
def keyOf (cr : Config) (function : String) : String :=
  healthServiceQueryKey cr.connectAware (normalizeName cr function)

/-- The identity `ResolveAll` derives for a function name. -/
def identOf (cr : Config) (function : String) : SpiffeIDService :=
  { Namespace := cr.ns, Datacenter := "dc1", Service := normalizeName cr function }

/-! ### Concrete fixtures used in examples and witnesses -/

/-- Configuration of the worked example in the spec: job prefix `"svc-"`,
namespace `"openfaas-fn"`, plain (non-connect) health queries. -/
def cfg3 : Config := { jobPre := "svc-", ns := "openfaas-fn", connectAware := false }

/-- The freshly constructed resolver state: empty cache, no subscriptions. -/
def stEmpty : ResolverState := { cache := [], subs := [] }

/-- An instance reporting zero health-check entries. -/
def svc0 : HealthService := { Address := "10.0.0.1", Port := 80, Checks := [] }

/-- An instance reporting one health-check entry. -/
def svc1 : HealthService := { Address := "10.0.0.2", Port := 81, Checks := ["serfHealth"] }

/-- An instance reporting two health-check entries. -/
def svc2 : HealthService := { Address := "10.0.0.3", Port := 82, Checks := ["serfHealth", "svc"] }

/-- A catalog whose every query resolves to the single two-check instance. -/
def fetch3 : String → Except String (List HealthService) := fun _ => Except.ok [svc2]

/-- A catalog whose every query resolves to no instances. -/
def fetchEmpty : String → Except String (List HealthService) := fun _ => Except.ok []

/-- A catalog whose every fetch fails. -/
def fetchFail : String → Except String (List HealthService) := fun _ => Except.error "connection refused"

/-- A random-number generator that always returns index 0. -/
def rngZero : (n : Nat) → 0 < n → Fin n := fun _ h => ⟨0, h⟩

/-! ### Helper lemmas -/

/-- The accumulator loop of `updateCatalog` computes the filter-and-render
of the snapshot, appended to the initial accumulator. -/
theorem addrFold_eq (svcs : List HealthService) (acc : List String) :
    svcs.foldl (fun acc s => if 1 < s.Checks.length then acc ++ [addrOf s] else acc) acc
      = acc ++ specEligibleAddresses svcs := by
  induction svcs generalizing acc with
  | nil => simp [specEligibleAddresses]
  | cons s rest ih =>
    by_cases h : 1 < s.Checks.length
    · simp [h, ih, specEligibleAddresses, List.filter_cons]
    · simp [h, ih, specEligibleAddresses, List.filter_cons]

/-- Loading the key just stored yields the stored item. -/
theorem cacheLoad_cacheStore_self (c : List (String × serviceItem)) (k : String) (v : serviceItem) :
    cacheLoad (cacheStore c k v) k = some v := by
  induction c with
  | nil => simp [cacheStore, cacheLoad]
  | cons p rest ih =>
    obtain ⟨k', v'⟩ := p
    by_cases h : k' = k
    · simp [cacheStore, cacheLoad, h]
    · simp [cacheStore, cacheLoad, h, ih]

/-- A key is registered after `watcher.Add`. -/
theorem mem_addSub_self (subs : List String) (k : String) : k ∈ addSub subs k := by
  by_cases h : k ∈ subs <;> simp [addSub, h]

/-- Characterization of `resolveInternal` on a cache hit. -/
theorem resolveInternal_hit {cr : Config} {fetch : String → Except String (List HealthService)}
    {st : ResolverState} {s : String} {item : serviceItem}
    (h : cacheLoad st.cache (healthServiceQueryKey cr.connectAware s) = some item) :
    resolveInternal cr fetch st s =
      (Except.ok (item.addresses, { Namespace := cr.ns, Datacenter := "dc1", Service := s }),
       st, []) := by
  simp [resolveInternal, h]

/-- Characterization of `resolveInternal` on a cache miss with a successful
fetch: the filtered addresses are returned, stored under the query key, and
the query is registered with the watcher; exactly one fetch happens. -/
theorem resolveInternal_miss_ok {cr : Config} {fetch : String → Except String (List HealthService)}
    {st : ResolverState} {s : String} {svcs : List HealthService}
    (h1 : cacheLoad st.cache (healthServiceQueryKey cr.connectAware s) = none)
    (h2 : fetch (healthServiceQueryKey cr.connectAware s) = Except.ok svcs) :
    resolveInternal cr fetch st s =
      (Except.ok (specEligibleAddresses svcs,
         { Namespace := cr.ns, Datacenter := "dc1", Service := s }),
       { cache := cacheStore st.cache (healthServiceQueryKey cr.connectAware s)
           { serviceQuery := healthServiceQueryKey cr.connectAware s
             addresses := specEligibleAddresses svcs }
         subs := addSub st.subs (healthServiceQueryKey cr.connectAware s) },
       [healthServiceQueryKey cr.connectAware s]) := by
  simp [resolveInternal, h1, h2, updateCatalog, addrFold_eq]

/-- Characterization of `resolveInternal` on a cache miss with a failing
fetch: the upstream error is propagated, the state is unchanged, and exactly
one fetch was attempted. -/
theorem resolveInternal_miss_err {cr : Config} {fetch : String → Except String (List HealthService)}
    {st : ResolverState} {s : String} {e : String}
    (h1 : cacheLoad st.cache (healthServiceQueryKey cr.connectAware s) = none)
    (h2 : fetch (healthServiceQueryKey cr.connectAware s) = Except.error e) :
    resolveInternal cr fetch st s =
      (Except.error (ResolveError.upstream e), st, [healthServiceQueryKey cr.connectAware s]) := by
  simp [resolveInternal, h1, h2]

/-! ### Claims -/

/-- C1: for every catalog snapshot applied (one-shot fetch and watch loop
both go through `updateCatalog`), an instance contributes an
`"<address>:<port>"` entry to the stored `serviceItem` iff it reports
strictly more than one health-check entry, the eligible instances appear in
exactly catalog order, and the built item is what the cache stores under
the query key; of three instances with 0, 1 and 2 checks, only the one
with 2 checks appears. -/
theorem updateCatalog_filters_by_check_count :
    (∀ (st : ResolverState) (key : String) (svcs : List HealthService),
        (updateCatalog st key svcs).1.addresses = specEligibleAddresses svcs) ∧
    (∀ (st : ResolverState) (key : String) (svcs : List HealthService) (a : String),
        a ∈ (updateCatalog st key svcs).1.addresses ↔
          ∃ s, s ∈ svcs ∧ 1 < s.Checks.length ∧ addrOf s = a) ∧
    (∀ (st : ResolverState) (key : String) (svcs : List HealthService),
        cacheLoad (updateCatalog st key svcs).2.cache key = some (updateCatalog st key svcs).1) ∧
    (updateCatalog stEmpty "k" [svc0, svc1, svc2]).1.addresses = ["10.0.0.3:82"] := by
  have haddr : ∀ (st : ResolverState) (key : String) (svcs : List HealthService),
      (updateCatalog st key svcs).1.addresses = specEligibleAddresses svcs := by
    intro st key svcs
    simp [updateCatalog, addrFold_eq]
  refine ⟨haddr, ?_, ?_, ?_⟩
  · intro st key svcs a
    rw [haddr]
    simp only [specEligibleAddresses, List.mem_map, List.mem_filter, decide_eq_true_eq]
    constructor
    · rintro ⟨s, ⟨hs, hc⟩, ha⟩
      exact ⟨s, hs, hc, ha⟩
    · rintro ⟨s, hs, hc, ha⟩
      exact ⟨s, ⟨hs, hc⟩, ha⟩
  · intro st key svcs
    exact cacheLoad_cacheStore_self _ _ _
  · decide

/-- `resolveInternal_hit` phrased at the `ResolveAll` level. -/
theorem resolveAll_hit {cr : Config} {g : String → Except String (List HealthService)}
    {st : ResolverState} {f : String} {item : serviceItem}
    (h : cacheLoad st.cache (keyOf cr f) = some item) :
    ResolveAll cr g st f = (Except.ok (item.addresses, identOf cr f), st, []) :=
  resolveInternal_hit h

/-- `resolveInternal_miss_ok` phrased at the `ResolveAll` level. -/
theorem resolveAll_miss_ok {cr : Config} {fetch : String → Except String (List HealthService)}
    {st : ResolverState} {f : String} {svcs : List HealthService}
    (h1 : cacheLoad st.cache (keyOf cr f) = none)
    (h2 : fetch (keyOf cr f) = Except.ok svcs) :
    ResolveAll cr fetch st f =
      (Except.ok (specEligibleAddresses svcs, identOf cr f),
       { cache := cacheStore st.cache (keyOf cr f)
           { serviceQuery := keyOf cr f, addresses := specEligibleAddresses svcs }
         subs := addSub st.subs (keyOf cr f) },
       [keyOf cr f]) :=
  resolveInternal_miss_ok h1 h2

/-- `resolveInternal_miss_err` phrased at the `ResolveAll` level. -/
theorem resolveAll_miss_err {cr : Config} {fetch : String → Except String (List HealthService)}
    {st : ResolverState} {f : String} {e : String}
    (h1 : cacheLoad st.cache (keyOf cr f) = none)
    (h2 : fetch (keyOf cr f) = Except.error e) :
    ResolveAll cr fetch st f =
      (Except.error (ResolveError.upstream e), st, [keyOf cr f]) :=
  resolveInternal_miss_err h1 h2

/-- C2: on a service name not in the cache, the first `ResolveAll` performs
exactly one fetch (the trace is the singleton query key), returns the
filtered list, stores it in the cache under the query key and registers the
query with the watcher; an immediately following `ResolveAll` — with any
catalog whatsoever, showing no fetch is consulted — returns the same list
from the cache, leaves the state unchanged and fetches nothing. -/
theorem resolveAll_cache_miss_then_hit
    (cr : Config) (fetch : String → Except String (List HealthService))
    (st : ResolverState) (f : String) (svcs : List HealthService)
    (h1 : cacheLoad st.cache (keyOf cr f) = none)
    (h2 : fetch (keyOf cr f) = Except.ok svcs) :
    (ResolveAll cr fetch st f).2.2 = [keyOf cr f] ∧
    (ResolveAll cr fetch st f).1 = Except.ok (specEligibleAddresses svcs, identOf cr f) ∧
    cacheLoad ((ResolveAll cr fetch st f).2.1).cache (keyOf cr f) =
      some { serviceQuery := keyOf cr f, addresses := specEligibleAddresses svcs } ∧
    keyOf cr f ∈ ((ResolveAll cr fetch st f).2.1).subs ∧
    (∀ g, ResolveAll cr g ((ResolveAll cr fetch st f).2.1) f =
        (Except.ok (specEligibleAddresses svcs, identOf cr f),
         (ResolveAll cr fetch st f).2.1, [])) := by
  rw [resolveAll_miss_ok h1 h2]
  refine ⟨rfl, rfl, cacheLoad_cacheStore_self _ _ _, mem_addSub_self _ _, ?_⟩
  intro g
  refine @resolveAll_hit cr g _ f
    { serviceQuery := keyOf cr f, addresses := specEligibleAddresses svcs } ?_
  exact cacheLoad_cacheStore_self _ _ _

/-- Witness for C2 at the spec's worked example: the cache is initially
empty at the query key, and the first `ResolveAll` returns exactly the
filtered snapshot together with the derived identity. -/
theorem resolveAll_cache_miss_then_hit_witness :
    cacheLoad stEmpty.cache (keyOf cfg3 "echo.openfaas-fn") = none ∧
    (ResolveAll cfg3 fetch3 stEmpty "echo.openfaas-fn").1 =
      Except.ok (specEligibleAddresses [svc2], identOf cfg3 "echo.openfaas-fn") :=
  ⟨rfl, (resolveAll_cache_miss_then_hit cfg3 fetch3 stEmpty "echo.openfaas-fn" [svc2]
      rfl rfl).2.1⟩

/-- C3: whenever `ResolveAll` succeeds — on the cache-hit path and on the
cache-miss path alike, for every cache state — the returned identity is
derived purely from the configuration and the normalized name: namespace
from the configuration, datacenter fixed to `"dc1"`, service = configured
prefix prepended to the function name with the `"." ++ namespace` suffix
stripped; at the spec's worked example, `"echo.openfaas-fn"` with prefix
`"svc-"` and namespace `"openfaas-fn"` normalizes to `"svc-echo"` with
identity `{namespace: "openfaas-fn", datacenter: "dc1", service: "svc-echo"}`. -/
theorem resolveAll_normalization_and_identity :
    (∀ (cr : Config) (fetch : String → Except String (List HealthService))
        (st : ResolverState) (f : String) res cert st' tr,
        ResolveAll cr fetch st f = (Except.ok (res, cert), st', tr) →
          cert = identOf cr f) ∧
    normalizeName cfg3 "echo.openfaas-fn" = "svc-echo" ∧
    identOf cfg3 "echo.openfaas-fn" =
      { Namespace := "openfaas-fn", Datacenter := "dc1", Service := "svc-echo" } := by
  refine ⟨?_, by decide, by decide⟩
  intro cr fetch st f res cert st' tr h
  rcases hc : cacheLoad st.cache (keyOf cr f) with _ | item
  · rcases hf : fetch (keyOf cr f) with e | svcs
    · rw [resolveAll_miss_err hc hf] at h
      have h1' := (Prod.ext_iff.mp h).1
      simp at h1'
    · rw [resolveAll_miss_ok hc hf] at h
      have h1' := (Prod.ext_iff.mp h).1
      simp only [Except.ok.injEq, Prod.mk.injEq] at h1'
      exact h1'.2.symm
  · rw [resolveAll_hit hc] at h
    have h1' := (Prod.ext_iff.mp h).1
    simp only [Except.ok.injEq, Prod.mk.injEq] at h1'
    exact h1'.2.symm

/-- Witness for C3: at the worked example with a concrete fetch and the
empty cache, the successfully returned identity is the derived one. -/
theorem resolveAll_normalization_and_identity_witness :
    identOf cfg3 "echo.openfaas-fn" =
      { Namespace := "openfaas-fn", Datacenter := "dc1", Service := "svc-echo" } ∧
    ({ Namespace := "openfaas-fn", Datacenter := "dc1", Service := "svc-echo" } : SpiffeIDService) =
      identOf cfg3 "echo.openfaas-fn" :=
  ⟨resolveAll_normalization_and_identity.2.2,
   resolveAll_normalization_and_identity.1 cfg3 fetch3 stEmpty "echo.openfaas-fn"
     (specEligibleAddresses [svc2])
     { Namespace := "openfaas-fn", Datacenter := "dc1", Service := "svc-echo" }
     (ResolveAll cfg3 fetch3 stEmpty "echo.openfaas-fn").2.1
     (ResolveAll cfg3 fetch3 stEmpty "echo.openfaas-fn").2.2
     rfl⟩

/-- C4: for every random-number generator respecting `rand.Intn`'s contract
and every non-empty candidate list, `balance` returns a member of the list
together with the pass-through identity; on a single-element list the
result is that element for every generator — the generator is never
consulted — so the element is returned with probability 1. -/
theorem balance_selects_within_candidates :
    (∀ (randIntn : (n : Nat) → 0 < n → Fin n) (cands : List String) (cert : SpiffeIDService),
        cands ≠ [] →
          ∃ a, a ∈ cands ∧ balance randIntn cands cert = Except.ok (a, cert)) ∧
    (∀ (randIntn randIntn' : (n : Nat) → 0 < n → Fin n) (a : String) (cert : SpiffeIDService),
        balance randIntn [a] cert = Except.ok (a, cert) ∧
        balance randIntn [a] cert = balance randIntn' [a] cert) := by
  constructor
  · intro randIntn cands cert hne
    match cands with
    | c :: cs =>
      refine ⟨_, ?_, rfl⟩
      exact List.get_mem _ _ _
  · intro randIntn randIntn' a cert
    exact ⟨rfl, rfl⟩

/-- Witness for C4: a concrete two-candidate list is non-empty and the
zero-index generator selects a member of it. -/
theorem balance_selects_within_candidates_witness :
    (["10.0.0.1:80", "10.0.0.3:82"] : List String) ≠ [] ∧
    ∃ a, a ∈ ["10.0.0.1:80", "10.0.0.3:82"] ∧
      balance rngZero ["10.0.0.1:80", "10.0.0.3:82"] (identOf cfg3 "echo.openfaas-fn") =
        Except.ok (a, identOf cfg3 "echo.openfaas-fn") :=
  ⟨by decide,
   balance_selects_within_candidates.1 rngZero ["10.0.0.1:80", "10.0.0.3:82"]
     (identOf cfg3 "echo.openfaas-fn") (by decide)⟩

/-- C5: when the resolved address list is empty (covering Go's nil and
empty slices alike), `balance` — and hence `Resolve` — fails with the
no-candidate error, which is distinct from every upstream error; both
functions are total, so no input panics or crashes. -/
theorem resolve_empty_candidates_noCandidate :
    (∀ (randIntn : (n : Nat) → 0 < n → Fin n) (cert : SpiffeIDService),
        balance randIntn [] cert = Except.error ResolveError.noCandidate) ∧
    (∀ (cr : Config) (randIntn : (n : Nat) → 0 < n → Fin n)
        (fetch : String → Except String (List HealthService))
        (st : ResolverState) (f : String) cert st' tr,
        ResolveAll cr fetch st f = (Except.ok ([], cert), st', tr) →
          Resolve cr randIntn fetch st f =
            (Except.error ResolveError.noCandidate, st', tr)) ∧
    (∀ m, ResolveError.noCandidate ≠ ResolveError.upstream m) := by
  refine ⟨fun _ _ => rfl, ?_, fun m h => by cases h⟩
  intro cr randIntn fetch st f cert st' tr h
  unfold Resolve
  rw [h]
  rfl

/-- Witness for C5: with a catalog returning the empty instance list, the
one-shot fetch succeeds with zero eligible instances and `Resolve` fails
with the no-candidate error. -/
theorem resolve_empty_candidates_noCandidate_witness :
    Resolve cfg3 rngZero fetchEmpty stEmpty "echo.openfaas-fn" =
      (Except.error ResolveError.noCandidate,
       (ResolveAll cfg3 fetchEmpty stEmpty "echo.openfaas-fn").2.1,
       (ResolveAll cfg3 fetchEmpty stEmpty "echo.openfaas-fn").2.2) :=
  resolve_empty_candidates_noCandidate.2.1 cfg3 rngZero fetchEmpty stEmpty
    "echo.openfaas-fn" (identOf cfg3 "echo.openfaas-fn") _ _ rfl

/-- C6: when the one-shot fetch on a cache miss fails, `ResolveAll` fails
with the upstream error propagated from the catalog client, having
attempted exactly one fetch (no retry at this layer — the trace is the
single query key), and that error is distinct from the no-candidate
error. -/
theorem resolveAll_fetch_failure_upstream
    (cr : Config) (fetch : String → Except String (List HealthService))
    (st : ResolverState) (f : String) (e : String)
    (h1 : cacheLoad st.cache (keyOf cr f) = none)
    (h2 : fetch (keyOf cr f) = Except.error e) :
    ResolveAll cr fetch st f = (Except.error (ResolveError.upstream e), st, [keyOf cr f]) ∧
    ResolveError.upstream e ≠ ResolveError.noCandidate := by
  refine ⟨resolveAll_miss_err h1 h2, fun h => by cases h⟩

/-- Witness for C6: the always-failing catalog makes `ResolveAll` on the
empty cache fail upstream with the propagated message. -/
theorem resolveAll_fetch_failure_upstream_witness :
    ResolveAll cfg3 fetchFail stEmpty "echo.openfaas-fn" =
      (Except.error (ResolveError.upstream "connection refused"), stEmpty,
       [keyOf cfg3 "echo.openfaas-fn"]) ∧
    ResolveError.upstream "connection refused" ≠ ResolveError.noCandidate :=
  resolveAll_fetch_failure_upstream cfg3 fetchFail stEmpty "echo.openfaas-fn"
    "connection refused" rfl rfl

/-- C10: when the one-shot fetch on a cache miss fails, `ResolveAll`
returns with the resolver state unchanged: the successor state is the input
state, so nothing is stored under the query key and the query is not
registered with the watcher. -/
theorem resolveAll_fetch_failure_state_unchanged
    (cr : Config) (fetch : String → Except String (List HealthService))
    (st : ResolverState) (f : String) (e : String)
    (h1 : cacheLoad st.cache (keyOf cr f) = none)
    (h2 : fetch (keyOf cr f) = Except.error e) :
    (ResolveAll cr fetch st f).2.1 = st ∧
    cacheLoad ((ResolveAll cr fetch st f).2.1).cache (keyOf cr f) = none ∧
    ((ResolveAll cr fetch st f).2.1).subs = st.subs := by
  rw [resolveAll_miss_err h1 h2]
  exact ⟨rfl, h1, rfl⟩

/-- Witness for C10: with the always-failing catalog and the empty initial
state, the state after the failed `ResolveAll` is still the empty state. -/
theorem resolveAll_fetch_failure_state_unchanged_witness :
    (ResolveAll cfg3 fetchFail stEmpty "echo.openfaas-fn").2.1 = stEmpty ∧
    cacheLoad ((ResolveAll cfg3 fetchFail stEmpty "echo.openfaas-fn").2.1).cache
      (keyOf cfg3 "echo.openfaas-fn") = none ∧
    ((ResolveAll cfg3 fetchFail stEmpty "echo.openfaas-fn").2.1).subs = stEmpty.subs :=
  resolveAll_fetch_failure_state_unchanged cfg3 fetchFail stEmpty "echo.openfaas-fn"
    "connection refused" rfl rfl

/-- A delivered view is well-typed when its payload has the dynamic type
the watch loop asserts, `[]*dependency.HealthService`. -/
def wellTypedView (d : View) : Prop :=
  ∃ svcs, d.data = WatchData.healthServices svcs

/-- Counterexample for C7: the watch loop body performs the unchecked type
assertion `d.Data().([]*dependency.HealthService)`; on a push whose payload
is of any other dynamic type the assertion panics (modelled as `none`)
instead of dropping or logging the push, so the loop does not continue past
it — `watchRun` aborts rather than reaching the end of the channel. -/
theorem watchStep_malformed_push_panics :
    watchStep stEmpty { dep := "health.service(svc-echo)", data := WatchData.otherData } = none ∧
    watchRun stEmpty
      [{ dep := "health.service(svc-echo)", data := WatchData.otherData }] = none ∧
    ¬ ∃ st', watchRun stEmpty
      [{ dep := "health.service(svc-echo)", data := WatchData.otherData }] = some st' := by
  refine ⟨rfl, rfl, ?_⟩
  rintro ⟨st', h⟩
  cases h

/-- C7 (amended): for every well-typed value delivered on the subscription
channel the loop applies the shared catalog-store procedure and continues
with the next value; the loop ends — returning normally — exactly when the
channel is exhausted, i.e. closed by `Reset`.  (Pushes whose payload is not
a health-service list would instead panic the loop, but the resolver only
registers health queries, which always deliver such lists.) -/
theorem watchRun_welltyped_never_crashes :
    (∀ st : ResolverState, watchRun st [] = some st) ∧
    (∀ (st : ResolverState) (key : String) (svcs : List HealthService) (ds : List View),
        watchRun st ({ dep := key, data := WatchData.healthServices svcs } :: ds) =
          watchRun (updateCatalog st key svcs).2 ds) ∧
    (∀ (st : ResolverState) (ds : List View), (∀ d ∈ ds, wellTypedView d) →
        ∃ st', watchRun st ds = some st') := by
  refine ⟨fun _ => rfl, fun _ _ _ _ => rfl, ?_⟩
  intro st ds
  induction ds generalizing st with
  | nil => exact fun _ => ⟨st, rfl⟩
  | cons d rest ih =>
    intro h
    obtain ⟨svcs, hd⟩ := h d (List.mem_cons_self d rest)
    have hrest : ∀ d' ∈ rest, wellTypedView d' := fun d' hd' => h d' (List.mem_cons_of_mem _ hd')
    obtain ⟨st', hst'⟩ := ih (updateCatalog st d.dep svcs).2 hrest
    refine ⟨st', ?_⟩
    simp [watchRun, watchStep, hd, hst']

/-- Witness for C7 (amended): a concrete two-push channel trace whose every
payload is a health-service list is drained to completion. -/
theorem watchRun_welltyped_never_crashes_witness :
    ∃ st', watchRun stEmpty
      [{ dep := "health.service(svc-echo)", data := WatchData.healthServices [svc2] },
       { dep := "health.service(svc-echo)", data := WatchData.healthServices [svc0] }] =
      some st' :=
  watchRun_welltyped_never_crashes.2.2 stEmpty
    [{ dep := "health.service(svc-echo)", data := WatchData.healthServices [svc2] },
     { dep := "health.service(svc-echo)", data := WatchData.healthServices [svc0] }]
    (by
      intro d hd
      simp only [List.mem_cons, List.not_mem_nil, or_false] at hd
      rcases hd with h | h
      · exact ⟨[svc2], by rw [h]⟩
      · exact ⟨[svc0], by rw [h]⟩)

/-- C8: after a firing of the reset ticker the cache is empty — every
previously cached `serviceItem` is unreachable, every lookup misses — and
every prior subscription is torn down; consequently the next resolution of
any query is a cache miss that repopulates through exactly one fresh
one-shot fetch (trace = the single query key) and re-registers the query. -/
theorem reset_clears_state_forces_refetch (st : ResolverState) :
    (reset st).cache = [] ∧
    (reset st).subs = [] ∧
    (∀ k, cacheLoad (reset st).cache k = none) ∧
    (∀ (cr : Config) (fetch : String → Except String (List HealthService))
        (f : String) (svcs : List HealthService),
        fetch (keyOf cr f) = Except.ok svcs →
          (ResolveAll cr fetch (reset st) f).2.2 = [keyOf cr f] ∧
          cacheLoad ((ResolveAll cr fetch (reset st) f).2.1).cache (keyOf cr f) =
            some { serviceQuery := keyOf cr f, addresses := specEligibleAddresses svcs } ∧
          keyOf cr f ∈ ((ResolveAll cr fetch (reset st) f).2.1).subs) := by
  refine ⟨rfl, rfl, fun _ => rfl, ?_⟩
  intro cr fetch f svcs hf
  have hmiss : cacheLoad (reset st).cache (keyOf cr f) = none := rfl
  rw [resolveAll_miss_ok hmiss hf]
  refine ⟨rfl, cacheLoad_cacheStore_self _ _ _, ?_⟩
  show keyOf cr f ∈ addSub (reset st).subs (keyOf cr f)
  exact mem_addSub_self _ _

/-- Witness for C8: starting from a state whose cache and subscriptions are
populated for the worked example's query, after the reset that query is a
miss and one successful fetch repopulates it. -/
theorem reset_clears_state_forces_refetch_witness :
    cacheLoad (reset (ResolveAll cfg3 fetch3 stEmpty "echo.openfaas-fn").2.1).cache
      (keyOf cfg3 "echo.openfaas-fn") = none ∧
    (ResolveAll cfg3 fetch3
        (reset (ResolveAll cfg3 fetch3 stEmpty "echo.openfaas-fn").2.1)
        "echo.openfaas-fn").2.2 = [keyOf cfg3 "echo.openfaas-fn"] :=
  ⟨rfl,
   ((reset_clears_state_forces_refetch
       (ResolveAll cfg3 fetch3 stEmpty "echo.openfaas-fn").2.1).2.2.2
     cfg3 fetch3 "echo.openfaas-fn" [svc2] rfl).1⟩

/-- C9: a catalog push for a subscribed query, processed by the watch loop,
goes through the very same `updateCatalog` store procedure as the one-shot
fetch path, wholesale-replacing the `serviceItem`; afterwards the next
`ResolveAll` for that query — under any catalog, showing no fetch and no
manual invalidation is involved — returns the address list filtered from
the pushed snapshot. -/
theorem watch_push_updates_next_resolve :
    ∀ (cr : Config) (st : ResolverState) (f : String) (svcs : List HealthService),
      watchStep st { dep := keyOf cr f, data := WatchData.healthServices svcs } =
        some (updateCatalog st (keyOf cr f) svcs).2 ∧
      ∀ g, ResolveAll cr g (updateCatalog st (keyOf cr f) svcs).2 f =
          (Except.ok (specEligibleAddresses svcs, identOf cr f),
           (updateCatalog st (keyOf cr f) svcs).2, []) := by
  intro cr st f svcs
  refine ⟨rfl, ?_⟩
  intro g
  have haddr : (updateCatalog st (keyOf cr f) svcs).1.addresses = specEligibleAddresses svcs := by
    simp [updateCatalog, addrFold_eq]
  have hload : cacheLoad ((updateCatalog st (keyOf cr f) svcs).2).cache (keyOf cr f) =
      some (updateCatalog st (keyOf cr f) svcs).1 :=
    cacheLoad_cacheStore_self _ _ _
  rw [resolveAll_hit hload, haddr]
